import Mathlib

/-!
Shallow embedding of the rate-limit admission engine of the
Rate-Limiter-and-Monitoring repository.

The engine's state (in-memory maps, the Redis-backed durable store, the
metadata cache, counter buckets, and event streams) is modelled as a single
record `SysState`; each source operation becomes a state-passing Lean
function translated from the TypeScript in
`src/lib/redis/api-key-storage.ts`, `src/lib/redis/keys.ts`,
`src/lib/redis/metadata.ts`, `src/lib/redis/events.ts`,
`src/lib/db/api-keys.ts` and the `rateLimitMiddleware` route middleware.

Modelling conventions (constraints the code itself cannot show):
- Redis hash-field serialization (numbers and booleans stored as strings and
  parsed back) round-trips exactly for the values the program writes, so
  stored records are modelled as the records themselves.
- Wall-clock time is an explicit `DateTimeUTC` argument; real latency
  measurement (`Date.now() - startTime`) is abstracted to 0 since no claim
  inspects latency values.
- `nanoid`, `bcrypt.hash` and `new Date()` are nondeterministic; their
  outputs (`id`, `apiKey`, `apiKeyHash`, `createdAt`) are passed to
  `createApiKey` as explicit oracle parameters.
- The Lua rate-limit script executes atomically on Redis; it is modelled as
  a single state transition, which is exactly the atomicity the server
  guarantees.
- JavaScript `Map` objects are association lists with unique keys kept in
  insertion order; in-place mutation of a credential object is visible
  through every map holding the reference, so such mutations update both
  in-memory maps.
- Redis `XADD ... MAXLEN ~ n` trimming is opportunistic and approximate; no
  claim depends on trimming, so streams are modelled as plain appends.
-/

/-- UTC wall-clock instant, mirroring the `Date` getUTC* accessors used by
the source (`month` is already the human 1-based month). -/
structure DateTimeUTC where
  year : Nat
  month : Nat
  day : Nat
  hour : Nat
  minute : Nat
  sec : Nat
  ms : Nat
deriving DecidableEq

/-- Model of `String(n).padStart(2, "0")` applied to a nonnegative number. -/
def pad2 (n : Nat) : String :=
  if n < 10 then "0" ++ Nat.repr n else Nat.repr n

/-- Key derivation from `src/lib/redis/keys.ts` (`getMinuteKey`). -/
def getMinuteKey (apiKey : String) (now : DateTimeUTC) : String :=
  "rl:" ++ apiKey ++ ":min:" ++
    (Nat.repr now.year ++ pad2 now.month ++ pad2 now.day ++ pad2 now.hour ++ pad2 now.minute)

/-- Key derivation from `src/lib/redis/keys.ts` (`getDayKey`). -/
def getDayKey (apiKey : String) (now : DateTimeUTC) : String :=
  "rl:" ++ apiKey ++ ":day:" ++
    (Nat.repr now.year ++ pad2 now.month ++ pad2 now.day)

/-- Per-credential events-stream key (`getEventsStreamKey`). -/
def getEventsStreamKey (apiKey : String) : String :=
  "events:" ++ apiKey

/-- Global events-stream key (`getGlobalEventsStreamKey`). -/
def getGlobalEventsStreamKey : String :=
  "events:global"

/-- Loose rendering of `Date.prototype.toISOString`; no claim inspects the
timestamp text, only that an event is appended. -/
def toTimestampString (t : DateTimeUTC) : String :=
  Nat.repr t.year ++ "-" ++ pad2 t.month ++ "-" ++ pad2 t.day ++ "T" ++
    pad2 t.hour ++ ":" ++ pad2 t.minute ++ ":" ++ pad2 t.sec

/-- Credential record (`ApiKey` in `src/lib/db/api-keys.ts`; `StoredApiKey`
in `src/lib/redis/api-key-storage.ts` has the same fields). -/
structure ApiKey where
  id : String
  name : String
  apiKey : String
  apiKeyHash : String
  ownerEmail : String
  tier : String
  perMinute : Nat
  perDay : Nat
  disabled : Bool
  createdAt : String
deriving DecidableEq

/-- Tier record (`Tier` in `src/lib/db/api-keys.ts`). -/
structure Tier where
  id : String
  name : String
  rateLimit : Nat
  burstLimit : Nat
deriving DecidableEq

/-- Cached metadata entry (`ApiKeyMetadata` in `src/lib/redis/metadata.ts`). -/
structure ApiKeyMetadata where
  id : String
  name : String
  tier : String
  perMinute : Nat
  perDay : Nat
  disabled : Bool
  ownerEmail : String
deriving DecidableEq

/-- Audit event (`RateLimitEvent` in `src/lib/redis/events.ts`). -/
structure RateLimitEvent where
  timestamp : String
  apiKey : String
  endpoint : String
  status : Nat
  reason : String
  latencyMs : Nat
deriving DecidableEq

/-- Result of the atomic Lua rate-limit script (`RateLimitResult` in
`src/lib/redis/api-key-storage.ts`). -/
structure RateLimitResult where
  minuteCount : Nat
  dayCount : Nat
  isOverLimit : Bool
deriving DecidableEq

/-- Association-list lookup mirroring `Map.prototype.get` (keys unique). -/
def mapLookup {α : Type} (m : List (String × α)) (k : String) : Option α :=
  match m with
  | [] => none
  | (k₀, v₀) :: rest => if k₀ = k then some v₀ else mapLookup rest k

/-- Association-list write mirroring `Map.prototype.set`: replace in place,
else append (JS Maps keep insertion order). -/
def mapSet {α : Type} (m : List (String × α)) (k : String) (v : α) :
    List (String × α) :=
  match m with
  | [] => [(k, v)]
  | (k₀, v₀) :: rest =>
      if k₀ = k then (k₀, v) :: rest else (k₀, v₀) :: mapSet rest k v

/-- Association-list removal mirroring `Map.prototype.delete`. -/
def mapDelete {α : Type} (m : List (String × α)) (k : String) :
    List (String × α) :=
  m.filter (fun p => decide (p.1 ≠ k))

/-- Redis `SADD` on a set modelled as a duplicate-free list. -/
def saddL (l : List String) (x : String) : List String :=
  if x ∈ l then l else l ++ [x]

/-- Point update of a partial map modelled as a function. -/
def fset {α : Type} (m : String → Option α) (k : String) (v : Option α) :
    String → Option α :=
  fun x => if x = k then v else m x

/-- Append one event to one stream (`XADD`; approximate trimming elided). -/
def streamAppend (st : String → List RateLimitEvent) (k : String)
    (e : RateLimitEvent) : String → List RateLimitEvent :=
  fun x => if x = k then st k ++ [e] else st x

/-- Whole-system state: in-memory module maps, the Redis durable store,
the metadata cache, counter buckets with TTLs, event streams, last-seen. -/
structure SysState where
  apiKeysStore : List (String × ApiKey)
  apiKeysByHash : List (String × ApiKey)
  tiersStore : List (String × Tier)
  storedKeys : String → Option ApiKey
  apiKeysSet : List String
  storedTiers : String → Option Tier
  tiersSet : List String
  metaCache : String → Option ApiKeyMetadata
  counters : String → Option Nat
  pttl : String → Option Nat
  streams : String → List RateLimitEvent
  lastSeen : String → Option String

/-- Default tiers from the `tiersStore` literal in `src/lib/db/api-keys.ts`. -/
def defaultTiersStore : List (String × Tier) :=
  [("basic", { id := "basic", name := "Basic", rateLimit := 20, burstLimit := 30 }),
   ("standard", { id := "standard", name := "Standard", rateLimit := 30, burstLimit := 50 }),
   ("premium", { id := "premium", name := "Premium", rateLimit := 40, burstLimit := 80 })]

/-- Fresh process state: default tiers in memory, everything else empty. -/
def initState : SysState where
  apiKeysStore := []
  apiKeysByHash := []
  tiersStore := defaultTiersStore
  storedKeys := fun _ => none
  apiKeysSet := []
  storedTiers := fun _ => none
  tiersSet := []
  metaCache := fun _ => none
  counters := fun _ => none
  pttl := fun _ => none
  streams := fun _ => []
  lastSeen := fun _ => none

/-- Atomic counter check from `checkRateLimit` in
`src/lib/redis/api-key-storage.ts`: the Lua script INCRs the minute key,
sets its TTL (90 s) when the INCR result is 1, INCRs the day key, sets its
TTL (25 h) when that result is 1, and reports
`over = m > minuteLimit or d > dayLimit`; the whole block is one atomic
transition. -/
def checkRateLimit (s : SysState) (apiKey : String)
    (minuteLimit dayLimit : Nat) (now : DateTimeUTC) :
    RateLimitResult × SysState :=
  let minuteKey := getMinuteKey apiKey now
  let dayKey := getDayKey apiKey now
  let minuteTTL := 90 * 1000
  let dayTTL := 25 * 60 * 60 * 1000
  let m := (s.counters minuteKey).getD 0 + 1
  let c1 := fset s.counters minuteKey (some m)
  let p1 := if m = 1 then fset s.pttl minuteKey (some minuteTTL) else s.pttl
  let d := (c1 dayKey).getD 0 + 1
  let c2 := fset c1 dayKey (some d)
  let p2 := if d = 1 then fset p1 dayKey (some dayTTL) else p1
  let over := decide (minuteLimit < m) || decide (dayLimit < d)
  ({ minuteCount := m, dayCount := d, isOverLimit := over },
   { s with counters := c2, pttl := p2 })

/-- Read-only usage query from `getCurrentUsage` in
`src/lib/redis/api-key-storage.ts`: two GETs, missing keys read as 0. -/
def getCurrentUsage (s : SysState) (apiKey : String) (now : DateTimeUTC) :
    (Nat × Nat) × SysState :=
  let mc := s.counters (getMinuteKey apiKey now)
  let dc := s.counters (getDayKey apiKey now)
  ((mc.getD 0, dc.getD 0), s)

/-- Both stream writes performed by one `addEvent` call
(`src/lib/redis/events.ts`): per-key stream first, then the global stream. -/
def addEventStreams (e : RateLimitEvent)
    (st : String → List RateLimitEvent) : String → List RateLimitEvent :=
  streamAppend (streamAppend st (getEventsStreamKey e.apiKey) e)
    getGlobalEventsStreamKey e

/-- Event append (`addEvent`): the `appendOk` flag injects the possible
failure of the underlying `XADD` calls; the source awaits this promise with
no surrounding try/catch, so a failure propagates to the caller. -/
def addEvent (appendOk : Bool) (e : RateLimitEvent) (s : SysState) :
    Except Unit SysState :=
  if appendOk then
    Except.ok { s with streams := addEventStreams e s.streams }
  else
    Except.error ()

/-- Last-seen write (`updateLastSeen` in `src/lib/redis/metadata.ts`). -/
def updateLastSeen (s : SysState) (apiKey : String) (now : DateTimeUTC) :
    SysState :=
  { s with lastSeen := fset s.lastSeen apiKey (some (toTimestampString now)) }

/-- Metadata of a credential record as cached by the source
(`cacheMetadata` call sites in `src/lib/db/api-keys.ts`). -/
def metaOf (k : ApiKey) : ApiKeyMetadata :=
  { id := k.id, name := k.name, tier := k.tier, perMinute := k.perMinute,
    perDay := k.perDay, disabled := k.disabled, ownerEmail := k.ownerEmail }

/-- Limit refresh from `updateApiKeyWithCurrentTierLimits` in
`src/lib/db/api-keys.ts`: when the credential's tier still exists, replace
its limits with `rate*60` and `rate*60*60*24`; otherwise keep the record. -/
def updateApiKeyWithCurrentTierLimits (s : SysState) (key : ApiKey) : ApiKey :=
  match mapLookup s.tiersStore key.tier with
  | some currentTier =>
      { key with perMinute := currentTier.rateLimit * 60,
                 perDay := currentTier.rateLimit * 60 * 60 * 24 }
  | none => key

/-- All stored credentials (`getAllStoredApiKeys`): iterate the id set and
fetch each record, skipping ids whose record is missing. -/
def getAllStoredApiKeys (s : SysState) : List ApiKey :=
  s.apiKeysSet.filterMap s.storedKeys

/-- Durable-store scan (`findStoredApiKeyByValue`): first record whose
`apiKey` equals the searched value. -/
def findStoredApiKeyByValue (s : SysState) (v : String) : Option ApiKey :=
  (getAllStoredApiKeys s).find? (fun k => decide (k.apiKey = v))

/-- First in-memory map entry whose credential secret matches, with the map
key it is bound under (the `for (const key of memoryKeys)` scan). -/
def memFind (m : List (String × ApiKey)) (v : String) :
    Option (String × ApiKey) :=
  match m with
  | [] => none
  | (k₀, key) :: rest =>
      if key.apiKey = v then some (k₀, key) else memFind rest v

/-- Fallback part of `findApiKeyByValue` (after the metadata-cache path):
scan the in-memory store, repairing the metadata cache on a hit; otherwise
scan the durable store, repairing both the in-memory maps and the cache. -/
def findApiKeyByValueFallback (s : SysState) (v : String) :
    Option ApiKey × SysState :=
  match memFind s.apiKeysStore v with
  | some (mk, fullKey) =>
      let u := updateApiKeyWithCurrentTierLimits s fullKey
      let s1 := { s with apiKeysStore := mapSet s.apiKeysStore mk u,
                         apiKeysByHash := mapSet s.apiKeysByHash u.apiKeyHash u }
      (some u, { s1 with metaCache := fset s1.metaCache v (some (metaOf u)) })
  | none =>
      match findStoredApiKeyByValue s v with
      | some storedKey =>
          let u := updateApiKeyWithCurrentTierLimits s storedKey
          (some u,
           { s with apiKeysStore := mapSet s.apiKeysStore u.id u,
                    apiKeysByHash := mapSet s.apiKeysByHash u.apiKeyHash u,
                    metaCache := fset s.metaCache v (some (metaOf u)) })
      | none => (none, s)

/-- Tiered lookup from `findApiKeyByValue` in `src/lib/db/api-keys.ts`:
metadata-cache hit resolves through memory or the durable store; on a cache
miss or dangling cache entry, fall back to the memory scan and then the
durable-store scan. Every successful path returns the credential with its
limits refreshed from the current tier. -/
def findApiKeyByValue (s : SysState) (v : String) : Option ApiKey × SysState :=
  match s.metaCache v with
  | some cached =>
      (match mapLookup s.apiKeysStore cached.id with
       | some fullKey =>
           if fullKey.apiKey = v then
             let u := updateApiKeyWithCurrentTierLimits s fullKey
             (some u,
              { s with apiKeysStore := mapSet s.apiKeysStore cached.id u,
                       apiKeysByHash := mapSet s.apiKeysByHash u.apiKeyHash u })
           else findApiKeyByValueFallback s v
       | none =>
           match s.storedKeys cached.id with
           | some storedKey =>
               if storedKey.apiKey = v then
                 let u := updateApiKeyWithCurrentTierLimits s storedKey
                 (some u,
                  { s with apiKeysStore := mapSet s.apiKeysStore u.id u,
                           apiKeysByHash := mapSet s.apiKeysByHash u.apiKeyHash u })
               else findApiKeyByValueFallback s v
           | none => findApiKeyByValueFallback s v)
  | none => findApiKeyByValueFallback s v

/-- Credential creation (`createApiKey` in `src/lib/db/api-keys.ts`); the
generated id, secret, hash and timestamp arrive as oracle parameters and
the `{ id, apiKey }` return value is exactly that pair. -/
def createApiKey (s : SysState)
    (name tierName ownerEmail : String)
    (id apiKey apiKeyHash createdAt : String) : Except String SysState :=
  match mapLookup s.tiersStore tierName with
  | none => Except.error ("Tier " ++ tierName ++ " not found")
  | some tierConfig =>
      let perMinute := tierConfig.rateLimit * 60
      let perDay := tierConfig.rateLimit * 60 * 60 * 24
      let newKey : ApiKey :=
        { id := id, name := name, apiKey := apiKey, apiKeyHash := apiKeyHash,
          ownerEmail := ownerEmail, tier := tierName, perMinute := perMinute,
          perDay := perDay, disabled := false, createdAt := createdAt }
      let s1 := { s with apiKeysStore := mapSet s.apiKeysStore id newKey,
                         apiKeysByHash := mapSet s.apiKeysByHash apiKeyHash newKey }
      let s2 := { s1 with storedKeys := fset s1.storedKeys id (some newKey),
                          apiKeysSet := saddL s1.apiKeysSet id }
      Except.ok { s2 with metaCache := fset s2.metaCache apiKey (some (metaOf newKey)) }

/-- Hard delete (`deleteApiKey` in `src/lib/db/api-keys.ts`): resolve the
record from memory or the durable store, then remove the in-memory entries,
the durable record and set membership, and invalidate the cached metadata. -/
def deleteApiKey (s : SysState) (id : String) : Except String SysState :=
  match (match mapLookup s.apiKeysStore id with
         | some k => some k
         | none => s.storedKeys id) with
  | none => Except.error ("API key " ++ id ++ " not found")
  | some key =>
      Except.ok
        { s with apiKeysStore := mapDelete s.apiKeysStore id,
                 apiKeysByHash := mapDelete s.apiKeysByHash key.apiKeyHash,
                 storedKeys := fset s.storedKeys id none,
                 apiKeysSet := s.apiKeysSet.filter (fun x => decide (x ≠ id)),
                 metaCache := fset s.metaCache key.apiKey none }

/-- Per-credential limit override (`updateApiKeyLimits`): mutate the
in-memory record, merge the stored record (`updateStoredApiKey` throws when
the durable record is missing; the model reports only the error), then
invalidate and re-populate the metadata cache with the new values. -/
def updateApiKeyLimits (s : SysState) (id : String) (perMinute perDay : Nat) :
    Except String SysState :=
  match mapLookup s.apiKeysStore id with
  | none => Except.error ("API key " ++ id ++ " not found")
  | some key =>
      let key' := { key with perMinute := perMinute, perDay := perDay }
      let s1 := { s with apiKeysStore := mapSet s.apiKeysStore id key',
                         apiKeysByHash := mapSet s.apiKeysByHash key'.apiKeyHash key' }
      match s1.storedKeys id with
      | none => Except.error ("API key " ++ id ++ " not found")
      | some stored =>
          let stored' := { stored with perMinute := perMinute, perDay := perDay }
          let s2 := { s1 with storedKeys := fset s1.storedKeys stored'.id (some stored'),
                              apiKeysSet := saddL s1.apiKeysSet stored'.id }
          let s3 := { s2 with metaCache := fset s2.metaCache key.apiKey none }
          Except.ok { s3 with metaCache := fset s3.metaCache key.apiKey (some (metaOf key')) }

/-- Tier edit (`updateTier` in `src/lib/db/api-keys.ts`): `Object.assign`
merge of the supplied fields onto the in-memory tier, then persist it
(`storeTier`). -/
def updateTier (s : SysState) (id : String)
    (newRate newBurst : Option Nat) (newName : Option String) :
    Except String SysState :=
  match mapLookup s.tiersStore id with
  | none => Except.error ("Tier " ++ id ++ " not found")
  | some tier =>
      let tier' : Tier :=
        { tier with rateLimit := newRate.getD tier.rateLimit,
                    burstLimit := newBurst.getD tier.burstLimit,
                    name := newName.getD tier.name }
      let s1 := { s with tiersStore := mapSet s.tiersStore id tier' }
      Except.ok { s1 with storedTiers := fset s1.storedTiers tier'.id (some tier'),
                          tiersSet := saddL s1.tiersSet tier'.id }

/-- Admission verdict (`RateLimitResult` union in the middleware source). -/
inductive RLVerdict where
  | allowed (minuteCount dayCount minuteLimit dayLimit : Nat)
  | blocked (reason : String) (retryAfter : Nat)
deriving DecidableEq

/-- Seconds until the next minute boundary, as computed by the middleware's
over-limit branch (`Math.ceil((nextMinute - now) / 1000)` with seconds and
milliseconds zeroed on the boundary). -/
def computeRetryAfter (now : DateTimeUTC) : Nat :=
  (60000 - (now.sec * 1000 + now.ms) + 999) / 1000

/-- Admission decision flow (`rateLimitMiddleware` in the route middleware):
resolve the credential, reject missing/unknown/disabled, run the atomic
counter check, append exactly one event per decision (awaited, so a failed
append propagates as an error), and update last-seen on admit. -/
def rateLimitMiddleware (appendOk : Bool) (now : DateTimeUTC)
    (apiKeyHeader : Option String) (endpoint : String) (s : SysState) :
    Except Unit (RLVerdict × SysState) :=
  match apiKeyHeader with
  | none =>
      match addEvent appendOk
        { timestamp := toTimestampString now, apiKey := "anonymous",
          endpoint := endpoint, status := 401, reason := "Missing API key",
          latencyMs := 0 } s with
      | Except.error err => Except.error err
      | Except.ok s1 =>
          Except.ok (RLVerdict.blocked "Missing x-api-key header" 60, s1)
  | some apiKeyValue =>
      match (findApiKeyByValue s apiKeyValue).1 with
      | none =>
          match addEvent appendOk
            { timestamp := toTimestampString now, apiKey := apiKeyValue,
              endpoint := endpoint, status := 401, reason := "Invalid API key",
              latencyMs := 0 } (findApiKeyByValue s apiKeyValue).2 with
          | Except.error err => Except.error err
          | Except.ok s2 => Except.ok (RLVerdict.blocked "Invalid API key" 60, s2)
      | some apiKey =>
          if apiKey.disabled then
            match addEvent appendOk
              { timestamp := toTimestampString now, apiKey := apiKeyValue,
                endpoint := endpoint, status := 403, reason := "API key disabled",
                latencyMs := 0 } (findApiKeyByValue s apiKeyValue).2 with
            | Except.error err => Except.error err
            | Except.ok s2 =>
                Except.ok (RLVerdict.blocked "API key is disabled" 3600, s2)
          else
            if (checkRateLimit (findApiKeyByValue s apiKeyValue).2 apiKeyValue
                  apiKey.perMinute apiKey.perDay now).1.isOverLimit then
              match addEvent appendOk
                { timestamp := toTimestampString now, apiKey := apiKeyValue,
                  endpoint := endpoint, status := 429, reason := "Rate limit exceeded",
                  latencyMs := 0 }
                (checkRateLimit (findApiKeyByValue s apiKeyValue).2 apiKeyValue
                  apiKey.perMinute apiKey.perDay now).2 with
              | Except.error err => Except.error err
              | Except.ok s3 =>
                  Except.ok (RLVerdict.blocked "Rate limit exceeded"
                    (computeRetryAfter now), s3)
            else
              match addEvent appendOk
                { timestamp := toTimestampString now, apiKey := apiKeyValue,
                  endpoint := endpoint, status := 200, reason := "Allowed",
                  latencyMs := 0 }
                (checkRateLimit (findApiKeyByValue s apiKeyValue).2 apiKeyValue
                  apiKey.perMinute apiKey.perDay now).2 with
              | Except.error err => Except.error err
              | Except.ok s3 =>
                  Except.ok (RLVerdict.allowed
                    (checkRateLimit (findApiKeyByValue s apiKeyValue).2 apiKeyValue
                      apiKey.perMinute apiKey.perDay now).1.minuteCount
                    (checkRateLimit (findApiKeyByValue s apiKeyValue).2 apiKeyValue
                      apiKey.perMinute apiKey.perDay now).1.dayCount
                    apiKey.perMinute apiKey.perDay,
                    updateLastSeen s3 apiKeyValue now)

/-- Sample instant used by concrete witnesses. -/
def sampleTime : DateTimeUTC :=
  { year := 2026, month := 1, day := 1, hour := 0, minute := 0, sec := 0, ms := 0 }

/-- One counter-store call in a sequence of admission checks: the
credential secret presented, the limits passed, and the wall-clock instant. -/
structure CounterCall where
  secret : String
  minuteLimit : Nat
  dayLimit : Nat
  time : DateTimeUTC

/-- Sequential execution of a list of `checkRateLimit` calls. -/
def runCounterCalls (s : SysState) : List CounterCall → SysState
  | [] => s
  | c :: rest =>
      runCounterCalls (checkRateLimit s c.secret c.minuteLimit c.dayLimit c.time).2 rest

/-- Sample credential record used by concrete witnesses. -/
def sampleKey : ApiKey :=
  { id := "k1", name := "sample", apiKey := "K", apiKeyHash := "h1",
    ownerEmail := "admin@example.com", tier := "basic", perMinute := 1200,
    perDay := 1728000, disabled := false, createdAt := "2026-01-01" }

/-- State after provisioning one credential ("K", tier "basic") on a fresh
process, used by concrete witnesses. -/
def sampleCreatedState : SysState :=
  (createApiKey initState "sample" "basic" "admin@example.com"
    "k1" "K" "h1" "2026-01-01").toOption.getD initState

/-- State after an administrator retunes tier "basic" to 40 req/s. -/
def tierEditedState : SysState :=
  (updateTier sampleCreatedState "basic" (some 40) none none).toOption.getD initState

/-- State after a per-credential limit override of 7 / 9 on credential k1. -/
def limitsEditedState : SysState :=
  (updateApiKeyLimits sampleCreatedState "k1" 7 9).toOption.getD initState

/-- Disabled credential record used by concrete witnesses. -/
def disabledKey : ApiKey :=
  { id := "k2", name := "disabled-sample", apiKey := "D", apiKeyHash := "h2",
    ownerEmail := "admin@example.com", tier := "basic", perMinute := 1200,
    perDay := 1728000, disabled := true, createdAt := "2026-01-01" }

/-- State holding one disabled credential ("D"). -/
def disabledState : SysState :=
  { initState with
      apiKeysStore := [("k2", disabledKey)],
      apiKeysByHash := [("h2", disabledKey)],
      storedKeys := fun x => if x = "k2" then some disabledKey else none,
      apiKeysSet := ["k2"],
      metaCache := fun x => if x = "D" then some (metaOf disabledKey) else none }

/-- Wall-clock family for the C2 scenario: a fixed minute bucket
(2026-01-01 00:00 UTC) with variable seconds and milliseconds. -/
def c2Time (sec ms : Nat) : DateTimeUTC :=
  { year := 2026, month := 1, day := 1, hour := 0, minute := 0, sec := sec, ms := ms }

/-- The C2 scenario states: the provisioned-credential state with arbitrary
counter, TTL, stream, and last-seen contents. -/
def c2Family (c p : String → Option Nat) (st : String → List RateLimitEvent)
    (ls : String → Option String) : SysState :=
  { sampleCreatedState with counters := c, pttl := p, streams := st, lastSeen := ls }

/-- State after n admission checks for credential "K" at the given instant,
starting from the freshly provisioned state. -/
def c2Run (sec ms : Nat) : Nat → SysState
  | 0 => sampleCreatedState
  | n+1 =>
      match rateLimitMiddleware true (c2Time sec ms) (some "K") "api/data"
          (c2Run sec ms n) with
      | Except.ok r => r.2
      | Except.error _ => c2Run sec ms n

theorem fset_self {α : Type} (m : String → Option α) (k : String) (v : Option α) :
    fset m k v k = v := by
  simp [fset]

theorem fset_ne {α : Type} (m : String → Option α) (k x : String) (v : Option α)
    (h : x ≠ k) : fset m k v x = m x := by
  simp [fset, h]

/-- The minute bucket and the day bucket of one credential live under
distinct counter keys: the key bodies differ at the ":min:" / ":day:" tag. -/
theorem getMinuteKey_ne_getDayKey (k : String) (t₁ t₂ : DateTimeUTC) :
    getMinuteKey k t₁ ≠ getDayKey k t₂ := by
  unfold getMinuteKey getDayKey
  intro h
  have h2 := congrArg String.data h
  simp only [String.data_append] at h2
  simp at h2

/-- C1: one `checkRateLimit` call increments the caller's minute bucket and
day bucket each by exactly one (and no other counter key) in a single
transition; a bucket's TTL (90 s for the minute bucket, 25 h for the day
bucket) is installed exactly when the increment creates the bucket at value
1, and is left alone when the bucket already held a positive count; the
returned result reports the two new counts and
`isOverLimit = (minuteCount > minuteLimit or dayCount > dayLimit)`. -/
theorem c1_checkRateLimit_spec (s : SysState) (k : String) (ml dl : Nat)
    (t : DateTimeUTC) :
    ((checkRateLimit s k ml dl t).2.counters (getMinuteKey k t)
        = some ((s.counters (getMinuteKey k t)).getD 0 + 1)
     ∧ (checkRateLimit s k ml dl t).2.counters (getDayKey k t)
        = some ((s.counters (getDayKey k t)).getD 0 + 1)
     ∧ (∀ x, x ≠ getMinuteKey k t → x ≠ getDayKey k t →
          (checkRateLimit s k ml dl t).2.counters x = s.counters x))
    ∧ ((checkRateLimit s k ml dl t).1.minuteCount
        = (s.counters (getMinuteKey k t)).getD 0 + 1
     ∧ (checkRateLimit s k ml dl t).1.dayCount
        = (s.counters (getDayKey k t)).getD 0 + 1
     ∧ (checkRateLimit s k ml dl t).1.isOverLimit
        = (decide (ml < (checkRateLimit s k ml dl t).1.minuteCount)
           || decide (dl < (checkRateLimit s k ml dl t).1.dayCount)))
    ∧ ((s.counters (getMinuteKey k t) = none →
          (checkRateLimit s k ml dl t).2.pttl (getMinuteKey k t) = some 90000)
     ∧ (∀ n, s.counters (getMinuteKey k t) = some n → 0 < n →
          (checkRateLimit s k ml dl t).2.pttl (getMinuteKey k t)
            = s.pttl (getMinuteKey k t))
     ∧ (s.counters (getDayKey k t) = none →
          (checkRateLimit s k ml dl t).2.pttl (getDayKey k t) = some 90000000)
     ∧ (∀ n, s.counters (getDayKey k t) = some n → 0 < n →
          (checkRateLimit s k ml dl t).2.pttl (getDayKey k t)
            = s.pttl (getDayKey k t))
     ∧ (∀ x, x ≠ getMinuteKey k t → x ≠ getDayKey k t →
          (checkRateLimit s k ml dl t).2.pttl x = s.pttl x)) := by
  have hne : getMinuteKey k t ≠ getDayKey k t := getMinuteKey_ne_getDayKey k t t
  have hne' : getDayKey k t ≠ getMinuteKey k t := Ne.symm hne
  unfold checkRateLimit
  refine ⟨⟨?_, ?_, ?_⟩, ⟨?_, ?_, ?_⟩, ?_, ?_, ?_, ?_, ?_⟩
  · simp [fset, hne, hne']
  · simp [fset, hne, hne']
  · intro x hxm hxd
    simp [fset, hxm, hxd]
  · simp
  · simp [fset, hne']
  · simp
  · intro hm
    simp [fset, hne, hne', hm, ite_apply]
  · intro n hn hpos
    have hm1 : ¬ ((s.counters (getMinuteKey k t)).getD 0 + 1 = 1) := by
      rw [hn]; simp; omega
    simp [fset, hne, hne', hm1, ite_apply]
  · intro hd
    simp [fset, hne, hne', hd, ite_apply]
  · intro n hd hpos
    have hd1 : ¬ ((s.counters (getDayKey k t)).getD 0 + 1 = 1) := by
      rw [hd]; simp; omega
    simp [fset, hne, hne', hd1, ite_apply]
  · intro x hxm hxd
    simp [fset, hxm, hxd, ite_apply]

/-- Witness for C1 at a concrete input: the first hit on a fresh credential
creates the minute bucket with its 90-second TTL. -/
theorem c1_checkRateLimit_witness :
    (checkRateLimit initState "K" 0 5 sampleTime).2.pttl
      (getMinuteKey "K" sampleTime) = some 90000 :=
  (c1_checkRateLimit_spec initState "K" 0 5 sampleTime).2.2.1 rfl

theorem mapLookup_mapSet_self {α : Type} (m : List (String × α)) (k : String) (v : α) :
    mapLookup (mapSet m k v) k = some v := by
  induction m with
  | nil => simp [mapSet, mapLookup]
  | cons p rest ih =>
      by_cases h : p.1 = k
      · simp [mapSet, mapLookup, h]
      · simp [mapSet, mapLookup, h, ih]

theorem checkRateLimit_counters_minute (s : SysState) (k : String) (ml dl : Nat)
    (t : DateTimeUTC) :
    (checkRateLimit s k ml dl t).2.counters (getMinuteKey k t)
      = some ((s.counters (getMinuteKey k t)).getD 0 + 1) := by
  have hne : getMinuteKey k t ≠ getDayKey k t := getMinuteKey_ne_getDayKey k t t
  unfold checkRateLimit
  simp [fset, hne]

theorem checkRateLimit_counters_day (s : SysState) (k : String) (ml dl : Nat)
    (t : DateTimeUTC) :
    (checkRateLimit s k ml dl t).2.counters (getDayKey k t)
      = some ((s.counters (getDayKey k t)).getD 0 + 1) := by
  have hne' : getDayKey k t ≠ getMinuteKey k t :=
    Ne.symm (getMinuteKey_ne_getDayKey k t t)
  unfold checkRateLimit
  simp [fset, hne']

theorem checkRateLimit_counters_frame (s : SysState) (k : String) (ml dl : Nat)
    (t : DateTimeUTC) (x : String) (hxm : x ≠ getMinuteKey k t)
    (hxd : x ≠ getDayKey k t) :
    (checkRateLimit s k ml dl t).2.counters x = s.counters x := by
  unfold checkRateLimit
  simp [fset, hxm, hxd]

/-- Core counting lemma: running a sequence of counter calls in which every
call either targets exactly the observed credential's two buckets or is
disjoint from both of them adds the number of matching calls to each of the
observed buckets. -/
theorem runCounterCalls_getD (k : String) (t : DateTimeUTC) :
    ∀ (ops : List CounterCall) (s : SysState),
      (∀ c ∈ ops,
        (getMinuteKey c.secret c.time = getMinuteKey k t
          ∧ getDayKey c.secret c.time = getDayKey k t)
        ∨ (getMinuteKey c.secret c.time ≠ getMinuteKey k t
          ∧ getMinuteKey c.secret c.time ≠ getDayKey k t
          ∧ getDayKey c.secret c.time ≠ getMinuteKey k t
          ∧ getDayKey c.secret c.time ≠ getDayKey k t)) →
      ((runCounterCalls s ops).counters (getMinuteKey k t)).getD 0
        = (s.counters (getMinuteKey k t)).getD 0
          + (ops.filter (fun c =>
              decide (getMinuteKey c.secret c.time = getMinuteKey k t))).length
      ∧ ((runCounterCalls s ops).counters (getDayKey k t)).getD 0
        = (s.counters (getDayKey k t)).getD 0
          + (ops.filter (fun c =>
              decide (getMinuteKey c.secret c.time = getMinuteKey k t))).length := by
  intro ops
  induction ops with
  | nil => intro s _; simp [runCounterCalls]
  | cons c rest ih =>
      intro s hops
      have hc := hops c (List.mem_cons_self c rest)
      have hrest : ∀ c' ∈ rest, _ := fun c' hm => hops c' (List.mem_cons_of_mem c hm)
      rcases hc with ⟨hm, hd⟩ | ⟨h1, h2, h3, h4⟩
      · have step := ih (checkRateLimit s c.secret c.minuteLimit c.dayLimit c.time).2 hrest
        have cm : (checkRateLimit s c.secret c.minuteLimit c.dayLimit c.time).2.counters
            (getMinuteKey k t) = some ((s.counters (getMinuteKey k t)).getD 0 + 1) := by
          rw [← hm]
          rw [checkRateLimit_counters_minute]
        have cd : (checkRateLimit s c.secret c.minuteLimit c.dayLimit c.time).2.counters
            (getDayKey k t) = some ((s.counters (getDayKey k t)).getD 0 + 1) := by
          rw [← hd]
          rw [checkRateLimit_counters_day]
        refine ⟨?_, ?_⟩
        · rw [runCounterCalls, step.1, cm]
          simp [List.filter, hm]
          omega
        · rw [runCounterCalls, step.2, cd]
          simp [List.filter, hm]
          omega
      · have step := ih (checkRateLimit s c.secret c.minuteLimit c.dayLimit c.time).2 hrest
        have cm := checkRateLimit_counters_frame s c.secret c.minuteLimit c.dayLimit c.time
          (getMinuteKey k t) (Ne.symm h1) (Ne.symm h3)
        have cd := checkRateLimit_counters_frame s c.secret c.minuteLimit c.dayLimit c.time
          (getDayKey k t) (Ne.symm h2) (Ne.symm h4)
        refine ⟨?_, ?_⟩
        · rw [runCounterCalls, step.1, cm]
          simp [List.filter, h1]
        · rw [runCounterCalls, step.2, cd]
          simp [List.filter, h1]

/-- C6: `getCurrentUsage` mutates nothing; it reads `(0, 0)` when neither
bucket key exists; and after a sequence of counter calls of which exactly K
target the observed credential's (initially absent) minute and day buckets
— the others touching disjoint buckets of other credentials — it returns
exactly K for both windows. -/
theorem c6_getCurrentUsage_spec :
    (∀ (s : SysState) (k : String) (t : DateTimeUTC), (getCurrentUsage s k t).2 = s)
    ∧ (∀ (s : SysState) (k : String) (t : DateTimeUTC),
        s.counters (getMinuteKey k t) = none →
        s.counters (getDayKey k t) = none →
        (getCurrentUsage s k t).1 = (0, 0))
    ∧ (∀ (s : SysState) (k : String) (t : DateTimeUTC) (ops : List CounterCall),
        s.counters (getMinuteKey k t) = none →
        s.counters (getDayKey k t) = none →
        (∀ c ∈ ops,
          (getMinuteKey c.secret c.time = getMinuteKey k t
            ∧ getDayKey c.secret c.time = getDayKey k t)
          ∨ (getMinuteKey c.secret c.time ≠ getMinuteKey k t
            ∧ getMinuteKey c.secret c.time ≠ getDayKey k t
            ∧ getDayKey c.secret c.time ≠ getMinuteKey k t
            ∧ getDayKey c.secret c.time ≠ getDayKey k t)) →
        (getCurrentUsage (runCounterCalls s ops) k t).1 =
          ((ops.filter (fun c =>
              decide (getMinuteKey c.secret c.time = getMinuteKey k t))).length,
           (ops.filter (fun c =>
              decide (getMinuteKey c.secret c.time = getMinuteKey k t))).length)) := by
  refine ⟨fun s k t => rfl, ?_, ?_⟩
  · intro s k t hm hd
    simp [getCurrentUsage, hm, hd]
  · intro s k t ops hm hd hops
    have h := runCounterCalls_getD k t ops s hops
    simp [getCurrentUsage, h.1, h.2, hm, hd]

/-- Witness for C6: from a fresh store, two counter calls for credential
"K" interleaved with one for credential "L" yield usage (2, 2) for "K". -/
theorem c6_getCurrentUsage_witness :
    (getCurrentUsage (runCounterCalls initState
      [{ secret := "K", minuteLimit := 5, dayLimit := 9, time := sampleTime },
       { secret := "L", minuteLimit := 5, dayLimit := 9, time := sampleTime },
       { secret := "K", minuteLimit := 5, dayLimit := 9, time := sampleTime }])
      "K" sampleTime).1 = (2, 2) := by
  have h := c6_getCurrentUsage_spec.2.2 initState "K" sampleTime
    [{ secret := "K", minuteLimit := 5, dayLimit := 9, time := sampleTime },
     { secret := "L", minuteLimit := 5, dayLimit := 9, time := sampleTime },
     { secret := "K", minuteLimit := 5, dayLimit := 9, time := sampleTime }]
    rfl rfl (by decide)
  simpa using h

/-- C7: a credential created under a tier gets `perMinute = rate*60` and
`perDay = rate*86400` (also stored durably and cached); a limit refresh
from an existing tier recomputes the same derivation; and the default
"basic" tier (rate 20) derives 1200 per minute and 1,728,000 per day. -/
theorem c7_limit_derivation :
    (∀ (s : SysState) (name tierName owner id apiKey hash ca : String)
       (T : Tier) (s₁ : SysState),
      mapLookup s.tiersStore tierName = some T →
      createApiKey s name tierName owner id apiKey hash ca = Except.ok s₁ →
      ∃ k, mapLookup s₁.apiKeysStore id = some k
        ∧ k.perMinute = T.rateLimit * 60
        ∧ k.perDay = T.rateLimit * 86400
        ∧ s₁.storedKeys id = some k
        ∧ s₁.metaCache apiKey = some (metaOf k))
    ∧ (∀ (s : SysState) (key : ApiKey) (T : Tier),
        mapLookup s.tiersStore key.tier = some T →
        (updateApiKeyWithCurrentTierLimits s key).perMinute = T.rateLimit * 60
        ∧ (updateApiKeyWithCurrentTierLimits s key).perDay = T.rateLimit * 86400)
    ∧ (∃ T, mapLookup defaultTiersStore "basic" = some T
        ∧ T.rateLimit = 20 ∧ T.rateLimit * 60 = 1200
        ∧ T.rateLimit * 86400 = 1728000) := by
  refine ⟨?_, ?_, ?_⟩
  · intro s name tierName owner id apiKey hash ca T s₁ hT hok
    unfold createApiKey at hok
    rw [hT] at hok
    simp only [Except.ok.injEq] at hok
    subst hok
    refine ⟨_, mapLookup_mapSet_self _ _ _, ?_, ?_, ?_, ?_⟩
    · rfl
    · show T.rateLimit * 60 * 60 * 24 = T.rateLimit * 86400
      ring
    · exact fset_self _ _ _
    · exact fset_self _ _ _
  · intro s key T hT
    unfold updateApiKeyWithCurrentTierLimits
    rw [hT]
    exact ⟨rfl, by ring⟩
  · exact ⟨_, rfl, rfl, rfl, rfl⟩

/-- Witness for C7: refreshing the sample credential's limits from the
default "basic" tier yields 1200 per minute and 1,728,000 per day. -/
theorem c7_limit_derivation_witness :
    (updateApiKeyWithCurrentTierLimits initState sampleKey).perMinute = 1200
    ∧ (updateApiKeyWithCurrentTierLimits initState sampleKey).perDay = 1728000 := by
  have h := c7_limit_derivation.2.1 initState sampleKey
    { id := "basic", name := "Basic", rateLimit := 20, burstLimit := 30 } rfl
  simpa using h

theorem updateApiKeyWithCurrentTierLimits_tier (s : SysState) (key : ApiKey) :
    (updateApiKeyWithCurrentTierLimits s key).tier = key.tier := by
  unfold updateApiKeyWithCurrentTierLimits
  split <;> rfl

/-- Every credential returned by the fallback scan has its limits refreshed
from the current tier store. -/
theorem findApiKeyByValueFallback_some_shape (s : SysState) (v : String)
    (key : ApiKey) (h : (findApiKeyByValueFallback s v).1 = some key) :
    ∃ k₀, key = updateApiKeyWithCurrentTierLimits s k₀ := by
  unfold findApiKeyByValueFallback at h
  split at h
  · rename_i mk fullKey heq
    simp at h
    exact ⟨fullKey, h.symm⟩
  · split at h
    · rename_i storedKey heq
      simp at h
      exact ⟨storedKey, h.symm⟩
    · simp at h

/-- Every credential returned by `findApiKeyByValue` has its limits
refreshed from the current tier store. -/
theorem findApiKeyByValue_some_shape (s : SysState) (v : String)
    (key : ApiKey) (h : (findApiKeyByValue s v).1 = some key) :
    ∃ k₀, key = updateApiKeyWithCurrentTierLimits s k₀ := by
  unfold findApiKeyByValue at h
  split at h
  · rename_i cached heq
    split at h
    · rename_i fullKey hmem
      split at h
      · simp at h
        exact ⟨fullKey, h.symm⟩
      · exact findApiKeyByValueFallback_some_shape s v key h
    · split at h
      · rename_i storedKey hstored
        split at h
        · simp at h
          exact ⟨storedKey, h.symm⟩
        · exact findApiKeyByValueFallback_some_shape s v key h
      · exact findApiKeyByValueFallback_some_shape s v key h
  · exact findApiKeyByValueFallback_some_shape s v key h

/-- Whenever a lookup succeeds and the returned credential's tier exists in
the tier store, the returned limits are the tier-derived ones. -/
theorem findApiKeyByValue_limits (s : SysState) (v : String) (key : ApiKey)
    (T : Tier) (h : (findApiKeyByValue s v).1 = some key)
    (hT : mapLookup s.tiersStore key.tier = some T) :
    key.perMinute = T.rateLimit * 60 ∧ key.perDay = T.rateLimit * 60 * 60 * 24 := by
  obtain ⟨k₀, rfl⟩ := findApiKeyByValue_some_shape s v key h
  rw [updateApiKeyWithCurrentTierLimits_tier] at hT
  unfold updateApiKeyWithCurrentTierLimits
  rw [hT]
  exact ⟨rfl, rfl⟩

/-- The fallback scan never touches counters, TTLs, or event streams. -/
theorem findApiKeyByValueFallback_frame (s : SysState) (v : String) :
    (findApiKeyByValueFallback s v).2.counters = s.counters
    ∧ (findApiKeyByValueFallback s v).2.pttl = s.pttl
    ∧ (findApiKeyByValueFallback s v).2.streams = s.streams := by
  unfold findApiKeyByValueFallback
  split
  · exact ⟨rfl, rfl, rfl⟩
  · split
    · exact ⟨rfl, rfl, rfl⟩
    · exact ⟨rfl, rfl, rfl⟩

/-- Credential resolution never touches counters, TTLs, or event streams. -/
theorem findApiKeyByValue_frame (s : SysState) (v : String) :
    (findApiKeyByValue s v).2.counters = s.counters
    ∧ (findApiKeyByValue s v).2.pttl = s.pttl
    ∧ (findApiKeyByValue s v).2.streams = s.streams := by
  unfold findApiKeyByValue
  split
  · split
    · split
      · exact ⟨rfl, rfl, rfl⟩
      · exact findApiKeyByValueFallback_frame s v
    · split
      · split
        · exact ⟨rfl, rfl, rfl⟩
        · exact findApiKeyByValueFallback_frame s v
      · exact findApiKeyByValueFallback_frame s v
  · exact findApiKeyByValueFallback_frame s v

/-- C4: after an administrator edits a tier's rate to a new value, any
successful credential lookup that resolves a credential referencing that
tier returns limits derived from the new rate (rate*60 and rate*86400),
whatever lookup path resolved it and without the credential being
re-created. -/
theorem c4_tier_edit_next_lookup (s : SysState) (tid : String) (newRate : Nat)
    (nb : Option Nat) (nn : Option String) (s' : SysState)
    (hup : updateTier s tid (some newRate) nb nn = Except.ok s') :
    ∀ (v : String) (key : ApiKey),
      (findApiKeyByValue s' v).1 = some key → key.tier = tid →
      key.perMinute = newRate * 60 ∧ key.perDay = newRate * 86400 := by
  intro v key hfind htier
  unfold updateTier at hup
  cases hmt : mapLookup s.tiersStore tid with
  | none =>
      rw [hmt] at hup
      simp at hup
  | some tier =>
      rw [hmt] at hup
      simp only [Except.ok.injEq] at hup
      have hT : mapLookup s'.tiersStore key.tier
          = some { tier with rateLimit := (some newRate).getD tier.rateLimit,
                             burstLimit := nb.getD tier.burstLimit,
                             name := nn.getD tier.name } := by
        rw [← hup, htier]
        exact mapLookup_mapSet_self _ _ _
      have h := findApiKeyByValue_limits s' v key _ hfind hT
      refine ⟨?_, ?_⟩
      · rw [h.1]
        rfl
      · rw [h.2]
        show newRate * 60 * 60 * 24 = newRate * 86400
        ring

/-- Witness for C4: after retuning "basic" from 20 to 40 req/s, the very
next lookup of credential "K" yields limits 2400 and 3,456,000. -/
theorem c4_tier_edit_next_lookup_witness :
    ((findApiKeyByValue tierEditedState "K").1.getD sampleKey).perMinute = 40 * 60
    ∧ ((findApiKeyByValue tierEditedState "K").1.getD sampleKey).perDay = 40 * 86400 :=
  c4_tier_edit_next_lookup sampleCreatedState "basic" 40 none none tierEditedState rfl
    "K" ((findApiKeyByValue tierEditedState "K").1.getD sampleKey) rfl rfl

/-- The limits carried by an admitted verdict are exactly the resolved
credential's limits. -/
theorem rateLimitMiddleware_allowed_limits (ok : Bool) (t : DateTimeUTC)
    (v ep : String) (s : SysState) (key : ApiKey) (mc dc ml dl : Nat)
    (s₂ : SysState) (hfind : (findApiKeyByValue s v).1 = some key)
    (hmw : rateLimitMiddleware ok t (some v) ep s
      = Except.ok (RLVerdict.allowed mc dc ml dl, s₂)) :
    ml = key.perMinute ∧ dl = key.perDay := by
  unfold rateLimitMiddleware at hmw
  simp only [] at hmw
  rw [hfind] at hmw
  simp only [] at hmw
  cases hd : key.disabled with
  | true =>
      rw [hd] at hmw
      cases ok <;> simp [addEvent] at hmw
  | false =>
      rw [hd] at hmw
      simp only [Bool.false_eq_true, if_false] at hmw
      cases hov : (checkRateLimit (findApiKeyByValue s v).2 v key.perMinute
          key.perDay t).1.isOverLimit with
      | true =>
          rw [hov] at hmw
          cases ok <;> simp [addEvent] at hmw
      | false =>
          rw [hov] at hmw
          cases ok <;> simp [addEvent] at hmw
          exact ⟨hmw.1.2.2.1.symm, hmw.1.2.2.2.symm⟩

/-- C9: a per-credential limit override set through `updateApiKeyLimits`
leaves the tier store untouched, and every subsequent successful lookup of
a credential whose tier still exists returns the tier-derived limits
(rate*60 and rate*86400) — so the override never reaches an admission
check: an admitted verdict always carries the tier-derived limits. -/
theorem c9_per_credential_overrides_discarded (s : SysState) (id : String)
    (m d : Nat) (s' : SysState)
    (hup : updateApiKeyLimits s id m d = Except.ok s') :
    s'.tiersStore = s.tiersStore
    ∧ (∀ (v : String) (key : ApiKey) (T : Tier),
        (findApiKeyByValue s' v).1 = some key →
        mapLookup s'.tiersStore key.tier = some T →
        key.perMinute = T.rateLimit * 60 ∧ key.perDay = T.rateLimit * 86400)
    ∧ (∀ (ok : Bool) (t : DateTimeUTC) (v ep : String) (key : ApiKey) (T : Tier)
         (mc dc ml dl : Nat) (s₂ : SysState),
        (findApiKeyByValue s' v).1 = some key →
        mapLookup s'.tiersStore key.tier = some T →
        rateLimitMiddleware ok t (some v) ep s'
          = Except.ok (RLVerdict.allowed mc dc ml dl, s₂) →
        ml = T.rateLimit * 60 ∧ dl = T.rateLimit * 86400) := by
  refine ⟨?_, ?_, ?_⟩
  · unfold updateApiKeyLimits at hup
    cases hk : mapLookup s.apiKeysStore id with
    | none =>
        rw [hk] at hup
        simp at hup
    | some key =>
        rw [hk] at hup
        simp only [] at hup
        cases hst : s.storedKeys id with
        | none =>
            rw [hst] at hup
            simp at hup
        | some stored =>
            rw [hst] at hup
            simp only [Except.ok.injEq] at hup
            rw [← hup]
  · intro v key T hfind hT
    have h := findApiKeyByValue_limits s' v key T hfind hT
    refine ⟨h.1, ?_⟩
    rw [h.2]
    ring
  · intro ok t v ep key T mc dc ml dl s₂ hfind hT hmw
    have hml := rateLimitMiddleware_allowed_limits ok t v ep s' key mc dc ml dl s₂ hfind hmw
    have h := findApiKeyByValue_limits s' v key T hfind hT
    refine ⟨?_, ?_⟩
    · rw [hml.1, h.1]
    · rw [hml.2, h.2]
      ring

/-- Witness for C9: after overriding credential k1's limits to 7 / 9, the
next lookup of "K" still returns the "basic"-derived limits 1200 and
1,728,000. -/
theorem c9_per_credential_overrides_discarded_witness :
    ((findApiKeyByValue limitsEditedState "K").1.getD sampleKey).perMinute = 20 * 60
    ∧ ((findApiKeyByValue limitsEditedState "K").1.getD sampleKey).perDay = 20 * 86400 :=
  (c9_per_credential_overrides_discarded sampleCreatedState "k1" 7 9
      limitsEditedState rfl).2.1 "K"
    ((findApiKeyByValue limitsEditedState "K").1.getD sampleKey)
    { id := "basic", name := "Basic", rateLimit := 20, burstLimit := 30 } rfl rfl

/-- C5: when the resolved credential is disabled, the admission check
returns the forbidden "API key is disabled" rejection and no counter bucket
is touched: the counter store is bypassed, so every bucket's count (and
TTL) is identical before and after the check. -/
theorem c5_disabled_rejected_without_counter_touch (s : SysState)
    (v ep : String) (t : DateTimeUTC) (key : ApiKey)
    (hfind : (findApiKeyByValue s v).1 = some key)
    (hdis : key.disabled = true) :
    ∃ s₂, rateLimitMiddleware true t (some v) ep s
        = Except.ok (RLVerdict.blocked "API key is disabled" 3600, s₂)
      ∧ s₂.counters = s.counters ∧ s₂.pttl = s.pttl
      ∧ (∀ (k' : String) (t' : DateTimeUTC),
          (getCurrentUsage s₂ k' t').1 = (getCurrentUsage s k' t').1) := by
  have hframe := findApiKeyByValue_frame s v
  refine ⟨{ (findApiKeyByValue s v).2 with streams := addEventStreams ({ timestamp := toTimestampString t, apiKey := v, endpoint := ep, status := 403, reason := "API key disabled", latencyMs := 0 }) ((findApiKeyByValue s v).2.streams) }, ?_, ?_, ?_, ?_⟩
  · unfold rateLimitMiddleware
    simp only []
    rw [hfind]
    simp only [hdis, if_true]
    simp [addEvent]
  · exact hframe.1
  · exact hframe.2.1
  · intro k' t'
    unfold getCurrentUsage
    simp only [hframe.1]
  
/-- Witness for C5: the disabled credential "D" is rejected with the
disabled verdict and its counters stay untouched. -/
theorem c5_disabled_rejected_witness :
    ∃ s₂, rateLimitMiddleware true sampleTime (some "D") "api" disabledState
        = Except.ok (RLVerdict.blocked "API key is disabled" 3600, s₂)
      ∧ s₂.counters = disabledState.counters ∧ s₂.pttl = disabledState.pttl
      ∧ (∀ (k' : String) (t' : DateTimeUTC),
          (getCurrentUsage s₂ k' t').1 = (getCurrentUsage disabledState k' t').1) :=
  c5_disabled_rejected_without_counter_touch disabledState "D" "api" sampleTime
    ((findApiKeyByValue disabledState "D").1.getD sampleKey) rfl rfl

theorem checkRateLimit_streams (s : SysState) (k : String) (ml dl : Nat)
    (t : DateTimeUTC) : (checkRateLimit s k ml dl t).2.streams = s.streams := rfl

theorem updateLastSeen_streams (s : SysState) (k : String) (t : DateTimeUTC) :
    (updateLastSeen s k t).streams = s.streams := rfl

/-- Counterexample for C3: on a missing-credential request, the verdict
with a failing event append is no verdict at all (the middleware propagates
the failure), while the same request with a succeeding append returns the
missing-credential rejection — so the two runs do not return the same
verdict. -/
theorem c3_append_failure_changes_verdict_cex :
    rateLimitMiddleware false sampleTime none "api" initState = Except.error ()
    ∧ (rateLimitMiddleware true sampleTime none "api" initState).toOption.map Prod.fst
        = some (RLVerdict.blocked "Missing x-api-key header" 60) :=
  ⟨rfl, rfl⟩

/-- C3 (amended): every admission decision performs exactly one event
append, which writes to both the per-credential and the global stream; but
the append is awaited on the decision path with no error handling, so when
it fails the middleware returns no verdict at all — it propagates the
append failure instead of logging and ignoring it. -/
theorem c3_exactly_one_append_and_failure_propagates :
    (∀ (t : DateTimeUTC) (hdr : Option String) (ep : String) (s : SysState),
      ∃ (e : RateLimitEvent) (vd : RLVerdict) (s₁ : SysState),
        rateLimitMiddleware true t hdr ep s = Except.ok (vd, s₁)
        ∧ s₁.streams = addEventStreams e s.streams)
    ∧ (∀ (t : DateTimeUTC) (hdr : Option String) (ep : String) (s : SysState),
        rateLimitMiddleware false t hdr ep s = Except.error ()) := by
  constructor
  · intro t hdr ep s
    cases hdr with
    | none => exact ⟨_, _, _, rfl, rfl⟩
    | some v =>
        obtain ⟨hc, hp, hs⟩ := findApiKeyByValue_frame s v
        cases hres : (findApiKeyByValue s v).1 with
        | none =>
            refine ⟨{ timestamp := toTimestampString t, apiKey := v, endpoint := ep, status := 401, reason := "Invalid API key", latencyMs := 0 }, RLVerdict.blocked "Invalid API key" 60, { (findApiKeyByValue s v).2 with streams := addEventStreams ({ timestamp := toTimestampString t, apiKey := v, endpoint := ep, status := 401, reason := "Invalid API key", latencyMs := 0 }) ((findApiKeyByValue s v).2.streams) }, ?_, ?_⟩
            · unfold rateLimitMiddleware
              simp only []
              rw [hres]
              exact rfl
            · simp only []
              rw [hs]
        | some key =>
            cases hd : key.disabled with
            | true =>
                refine ⟨{ timestamp := toTimestampString t, apiKey := v, endpoint := ep, status := 403, reason := "API key disabled", latencyMs := 0 }, RLVerdict.blocked "API key is disabled" 3600, { (findApiKeyByValue s v).2 with streams := addEventStreams ({ timestamp := toTimestampString t, apiKey := v, endpoint := ep, status := 403, reason := "API key disabled", latencyMs := 0 }) ((findApiKeyByValue s v).2.streams) }, ?_, ?_⟩
                · unfold rateLimitMiddleware
                  simp only []
                  rw [hres]
                  simp only []
                  rw [hd]
                  exact rfl
                · simp only []
                  rw [hs]
            | false =>
                cases hov : (checkRateLimit (findApiKeyByValue s v).2 v
                    key.perMinute key.perDay t).1.isOverLimit with
                | true =>
                    refine ⟨{ timestamp := toTimestampString t, apiKey := v, endpoint := ep, status := 429, reason := "Rate limit exceeded", latencyMs := 0 }, RLVerdict.blocked "Rate limit exceeded" (computeRetryAfter t), { (checkRateLimit (findApiKeyByValue s v).2 v key.perMinute key.perDay t).2 with streams := addEventStreams ({ timestamp := toTimestampString t, apiKey := v, endpoint := ep, status := 429, reason := "Rate limit exceeded", latencyMs := 0 }) ((checkRateLimit (findApiKeyByValue s v).2 v key.perMinute key.perDay t).2.streams) }, ?_, ?_⟩
                    · unfold rateLimitMiddleware
                      simp only []
                      rw [hres]
                      simp only []
                      rw [hd, hov]
                      exact rfl
                    · simp only [checkRateLimit_streams]
                      rw [hs]
                | false =>
                    refine ⟨{ timestamp := toTimestampString t, apiKey := v, endpoint := ep, status := 200, reason := "Allowed", latencyMs := 0 }, RLVerdict.allowed (checkRateLimit (findApiKeyByValue s v).2 v key.perMinute key.perDay t).1.minuteCount (checkRateLimit (findApiKeyByValue s v).2 v key.perMinute key.perDay t).1.dayCount key.perMinute key.perDay, updateLastSeen ({ (checkRateLimit (findApiKeyByValue s v).2 v key.perMinute key.perDay t).2 with streams := addEventStreams ({ timestamp := toTimestampString t, apiKey := v, endpoint := ep, status := 200, reason := "Allowed", latencyMs := 0 }) ((checkRateLimit (findApiKeyByValue s v).2 v key.perMinute key.perDay t).2.streams) }) v t, ?_, ?_⟩
                    · unfold rateLimitMiddleware
                      simp only []
                      rw [hres]
                      simp only []
                      rw [hd, hov]
                      exact rfl
                    · simp only [updateLastSeen_streams, checkRateLimit_streams]
                      rw [hs]
  · intro t hdr ep s
    cases hdr with
    | none => rfl
    | some v =>
        cases hres : (findApiKeyByValue s v).1 with
        | none =>
            unfold rateLimitMiddleware
            simp only []
            rw [hres]
            exact rfl
        | some key =>
            cases hd : key.disabled with
            | true =>
                unfold rateLimitMiddleware
                simp only []
                rw [hres]
                simp only []
                rw [hd]
                exact rfl
            | false =>
                cases hov : (checkRateLimit (findApiKeyByValue s v).2 v
                    key.perMinute key.perDay t).1.isOverLimit with
                | true =>
                    unfold rateLimitMiddleware
                    simp only []
                    rw [hres]
                    simp only []
                    rw [hd, hov]
                    exact rfl
                | false =>
                    unfold rateLimitMiddleware
                    simp only []
                    rw [hres]
                    simp only []
                    rw [hd, hov]
                    exact rfl

theorem updateApiKeyWithCurrentTierLimits_id (s : SysState) (key : ApiKey) :
    (updateApiKeyWithCurrentTierLimits s key).id = key.id := by
  unfold updateApiKeyWithCurrentTierLimits
  split <;> rfl

theorem mapLookup_mapDelete_self {α : Type} (m : List (String × α)) (k : String) :
    mapLookup (mapDelete m k) k = none := by
  induction m with
  | nil => rfl
  | cons p rest ih =>
      by_cases h : p.1 = k
      · simp [mapDelete, List.filter_cons, h] at ih ⊢
        exact ih
      · simp [mapDelete, List.filter_cons, h] at ih ⊢
        simp [mapLookup, h]
        exact ih

theorem mapDelete_mapSet {α : Type} (m : List (String × α)) (k : String) (v : α) :
    mapDelete (mapSet m k v) k = mapDelete m k := by
  induction m with
  | nil => simp [mapSet, mapDelete, List.filter_cons]
  | cons p rest ih =>
      by_cases h : p.1 = k
      · simp [mapSet, mapDelete, List.filter_cons, h]
      · simp [mapSet, mapDelete, List.filter_cons, h] at ih ⊢
        exact ih

theorem memFind_eq_none_of (m : List (String × ApiKey)) (v : String)
    (h : ∀ p ∈ m, p.2.apiKey ≠ v) : memFind m v = none := by
  induction m with
  | nil => rfl
  | cons p rest ih =>
      have hp := h p (List.mem_cons_self p rest)
      simp only [memFind]
      rw [if_neg hp]
      exact ih (fun q hq => h q (List.mem_cons_of_mem p hq))

/-- A lookup that misses the metadata cache, the in-memory scan, and the
durable-store scan returns a miss. -/
theorem findApiKeyByValue_none (s : SysState) (v : String)
    (hmc : s.metaCache v = none)
    (hmem : memFind s.apiKeysStore v = none)
    (hred : findStoredApiKeyByValue s v = none) :
    (findApiKeyByValue s v).1 = none := by
  unfold findApiKeyByValue findApiKeyByValueFallback
  rw [hmc]
  simp only []
  rw [hmem]
  simp only []
  rw [hred]

/-- C10: deleting a credential removes its stored record, its membership in
the id set, its in-memory entry, and its cached metadata — but leaves every
counter bucket, every TTL, every event stream, and last-seen untouched. -/
theorem c10_delete_leaves_counters_and_events (s : SysState) (id : String)
    (key : ApiKey)
    (hres : mapLookup s.apiKeysStore id = some key
      ∨ (mapLookup s.apiKeysStore id = none ∧ s.storedKeys id = some key)) :
    ∀ s', deleteApiKey s id = Except.ok s' →
      s'.counters = s.counters ∧ s'.pttl = s.pttl ∧ s'.streams = s.streams
      ∧ s'.lastSeen = s.lastSeen
      ∧ mapLookup s'.apiKeysStore id = none
      ∧ s'.storedKeys id = none
      ∧ id ∉ s'.apiKeysSet
      ∧ s'.metaCache key.apiKey = none := by
  intro s' hdel
  unfold deleteApiKey at hdel
  rcases hres with hk | ⟨hk, hst⟩
  · rw [hk] at hdel
    simp only [Except.ok.injEq] at hdel
    subst hdel
    refine ⟨rfl, rfl, rfl, rfl, ?_, ?_, ?_, ?_⟩
    · exact mapLookup_mapDelete_self _ _
    · exact fset_self _ _ _
    · simp [List.mem_filter]
    · exact fset_self _ _ _
  · rw [hk, hst] at hdel
    simp only [Except.ok.injEq] at hdel
    subst hdel
    refine ⟨rfl, rfl, rfl, rfl, ?_, ?_, ?_, ?_⟩
    · exact mapLookup_mapDelete_self _ _
    · exact fset_self _ _ _
    · simp [List.mem_filter]
    · exact fset_self _ _ _

/-- Witness for C10: deleting the provisioned credential k1 removes the
record, the set membership, and the cached metadata, and preserves all
counters and streams. -/
theorem c10_delete_leaves_counters_and_events_witness :
    ((deleteApiKey sampleCreatedState "k1").toOption.getD initState).counters
        = sampleCreatedState.counters
    ∧ ((deleteApiKey sampleCreatedState "k1").toOption.getD initState).pttl
        = sampleCreatedState.pttl
    ∧ ((deleteApiKey sampleCreatedState "k1").toOption.getD initState).streams
        = sampleCreatedState.streams
    ∧ ((deleteApiKey sampleCreatedState "k1").toOption.getD initState).lastSeen
        = sampleCreatedState.lastSeen
    ∧ mapLookup ((deleteApiKey sampleCreatedState "k1").toOption.getD initState).apiKeysStore "k1" = none
    ∧ ((deleteApiKey sampleCreatedState "k1").toOption.getD initState).storedKeys "k1" = none
    ∧ "k1" ∉ ((deleteApiKey sampleCreatedState "k1").toOption.getD initState).apiKeysSet
    ∧ ((deleteApiKey sampleCreatedState "k1").toOption.getD initState).metaCache
        ((mapLookup sampleCreatedState.apiKeysStore "k1").getD sampleKey).apiKey = none :=
  c10_delete_leaves_counters_and_events sampleCreatedState "k1"
    ((mapLookup sampleCreatedState.apiKeysStore "k1").getD sampleKey) (Or.inl rfl)
    ((deleteApiKey sampleCreatedState "k1").toOption.getD initState) rfl

/-- C8: creating a credential and then looking up its secret resolves to
the same credential id; after deleting that credential by id, looking up
the secret misses, and the stored record, both in-memory entries, the id
set membership, and the cached metadata entry are all gone. The freshness
hypotheses say the generated secret did not already belong to another
credential. -/
theorem c8_create_find_delete_roundtrip (s : SysState)
    (name tierName owner id apiKey hash ca : String) (s₁ : SysState)
    (hfreshMem : ∀ p ∈ s.apiKeysStore, p.2.apiKey ≠ apiKey)
    (hfreshRed : ∀ (j : String) (k : ApiKey), s.storedKeys j = some k → k.apiKey ≠ apiKey)
    (hok : createApiKey s name tierName owner id apiKey hash ca = Except.ok s₁) :
    ((findApiKeyByValue s₁ apiKey).1).map (fun k => k.id) = some id
    ∧ (∀ s₂, deleteApiKey s₁ id = Except.ok s₂ →
        (findApiKeyByValue s₂ apiKey).1 = none
        ∧ mapLookup s₂.apiKeysStore id = none
        ∧ mapLookup s₂.apiKeysByHash hash = none
        ∧ s₂.storedKeys id = none
        ∧ id ∉ s₂.apiKeysSet
        ∧ s₂.metaCache apiKey = none) := by
  unfold createApiKey at hok
  cases hT : mapLookup s.tiersStore tierName with
  | none =>
      rw [hT] at hok
      simp at hok
  | some tierConfig =>
      rw [hT] at hok
      simp only [Except.ok.injEq] at hok
      subst hok
      constructor
      · unfold findApiKeyByValue
        simp [fset, metaOf, mapLookup_mapSet_self, updateApiKeyWithCurrentTierLimits_id]
      · intro s₂ hdel
        unfold deleteApiKey at hdel
        simp only [mapLookup_mapSet_self] at hdel
        simp only [Except.ok.injEq] at hdel
        subst hdel
        refine ⟨?_, ?_, ?_, ?_, ?_, ?_⟩
        · apply findApiKeyByValue_none
          · exact fset_self _ _ _
          · show memFind (mapDelete (mapSet s.apiKeysStore id _) id) apiKey = none
            rw [mapDelete_mapSet]
            exact memFind_eq_none_of _ _
              (fun p hp => hfreshMem p (List.mem_of_mem_filter hp))
          · unfold findStoredApiKeyByValue getAllStoredApiKeys
            rw [List.find?_eq_none]
            intro k hk
            rw [List.mem_filterMap] at hk
            obtain ⟨j, hj, hf⟩ := hk
            have hjne : j ≠ id := by
              have := List.of_mem_filter hj
              simpa using this
            simp only [fset] at hf
            rw [if_neg hjne, if_neg hjne] at hf
            simp only [decide_eq_true_eq]
            exact hfreshRed j k hf
        · exact mapLookup_mapDelete_self _ _
        · show mapLookup (mapDelete (mapSet s.apiKeysByHash hash _) hash) hash = none
          rw [mapDelete_mapSet]
          exact mapLookup_mapDelete_self _ _
        · exact fset_self _ _ _
        · simp [List.mem_filter]
        · exact fset_self _ _ _

/-- Witness for C8 on a fresh store: creating credential "K" (id k1) makes
the lookup of "K" resolve to k1, and after deleting k1 the lookup of "K"
misses. -/
theorem c8_create_find_delete_roundtrip_witness :
    ((findApiKeyByValue sampleCreatedState "K").1).map (fun k => k.id) = some "k1"
    ∧ (findApiKeyByValue ((deleteApiKey sampleCreatedState "k1").toOption.getD initState) "K").1 = none :=
  ⟨(c8_create_find_delete_roundtrip initState "sample" "basic" "admin@example.com"
      "k1" "K" "h1" "2026-01-01" sampleCreatedState
      (by intro p hp; simp [initState] at hp)
      (by intro j k h; simp [initState] at h) rfl).1,
   ((c8_create_find_delete_roundtrip initState "sample" "basic" "admin@example.com"
      "k1" "K" "h1" "2026-01-01" sampleCreatedState
      (by intro p hp; simp [initState] at hp)
      (by intro j k h; simp [initState] at h) rfl).2
     ((deleteApiKey sampleCreatedState "k1").toOption.getD initState) rfl).1⟩

/-- Resolution of "K" on any C2-scenario state is a fixpoint: the cache hit
resolves through memory and the repair writes replace entries with equal
values. -/
theorem c2_resolve (c p : String → Option Nat) (st : String → List RateLimitEvent)
    (ls : String → Option String) :
    findApiKeyByValue (c2Family c p st ls) "K" = (some sampleKey, c2Family c p st ls) := rfl

/-- One admission check on a C2-scenario state: both buckets advance by one
and the verdict is over-limit exactly when a count passes its limit. -/
theorem c2_step (c p : String → Option Nat) (st : String → List RateLimitEvent)
    (ls : String → Option String) (sec ms a b : Nat)
    (hma : (c (getMinuteKey "K" (c2Time sec ms))).getD 0 = a)
    (hdb : (c (getDayKey "K" (c2Time sec ms))).getD 0 = b) :
    ∃ p' st' ls',
      rateLimitMiddleware true (c2Time sec ms) (some "K") "api/data" (c2Family c p st ls)
      = Except.ok
          ((if 1200 < a + 1 ∨ 1728000 < b + 1
            then RLVerdict.blocked "Rate limit exceeded" (computeRetryAfter (c2Time sec ms))
            else RLVerdict.allowed (a + 1) (b + 1) 1200 1728000),
           c2Family
             (fset (fset c (getMinuteKey "K" (c2Time sec ms)) (some (a + 1)))
               (getDayKey "K" (c2Time sec ms)) (some (b + 1)))
             p' st' ls') := by
  have hres := c2_resolve c p st ls
  have hne' : getDayKey "K" (c2Time sec ms) ≠ getMinuteKey "K" (c2Time sec ms) :=
    Ne.symm (getMinuteKey_ne_getDayKey _ _ _)
  by_cases hover : 1200 < a + 1 ∨ 1728000 < b + 1
  · have hb : (decide (1200 < a + 1) || decide (1728000 < b + 1)) = true := by
      rcases hover with h | h <;> simp [h]
    exact ⟨_, _, _, by
      rw [if_pos hover]
      unfold rateLimitMiddleware checkRateLimit
      simp only []
      rw [hres]
      simp only [c2Family, sampleKey]
      simp only [fset_ne _ _ _ _ hne']
      simp only [hma, hdb]
      simp only [hb]
      simp [addEvent]
      exact ⟨rfl, rfl, rfl⟩⟩
  · have hb : (decide (1200 < a + 1) || decide (1728000 < b + 1)) = false := by
      push_neg at hover
      simp [hover.1, hover.2]
    exact ⟨_, _, _, by
      rw [if_neg hover]
      unfold rateLimitMiddleware checkRateLimit
      simp only []
      rw [hres]
      simp only [c2Family, sampleKey]
      simp only [fset_ne _ _ _ _ hne']
      simp only [hma, hdb]
      simp only [hb]
      simp [addEvent]
      exact rfl⟩

/-- After n admission checks in the C2 scenario, the state is still a
scenario state and both of credential "K"'s buckets hold exactly n. -/
theorem c2_run_spec (sec ms : Nat) : ∀ n : Nat,
    ∃ (cn p : String → Option Nat) (st : String → List RateLimitEvent)
      (ls : String → Option String),
      c2Run sec ms n = c2Family cn p st ls
      ∧ (cn (getMinuteKey "K" (c2Time sec ms))).getD 0 = n
      ∧ (cn (getDayKey "K" (c2Time sec ms))).getD 0 = n := by
  have hne : getMinuteKey "K" (c2Time sec ms) ≠ getDayKey "K" (c2Time sec ms) :=
    getMinuteKey_ne_getDayKey _ _ _
  intro n
  induction n with
  | zero =>
      exact ⟨sampleCreatedState.counters, sampleCreatedState.pttl,
        sampleCreatedState.streams, sampleCreatedState.lastSeen, rfl, rfl, rfl⟩
  | succ n ih =>
      obtain ⟨cn, p, st, ls, hrun, hm, hd⟩ := ih
      obtain ⟨p', st', ls', hstep⟩ := c2_step cn p st ls sec ms n n hm hd
      refine ⟨fset (fset cn (getMinuteKey "K" (c2Time sec ms)) (some (n + 1)))
        (getDayKey "K" (c2Time sec ms)) (some (n + 1)), p', st', ls', ?_, ?_, ?_⟩
      · simp only [c2Run]
        rw [hrun, hstep]
      · rw [fset_ne _ _ _ _ hne, fset_self]
        rfl
      · rw [fset_self]
        rfl

theorem checkRateLimit_isOverLimit (s : SysState) (k : String) (L D : Nat)
    (t : DateTimeUTC) :
    (checkRateLimit s k L D t).1.isOverLimit
      = (decide (L < (s.counters (getMinuteKey k t)).getD 0 + 1)
         || decide (D < (s.counters (getDayKey k t)).getD 0 + 1)) := by
  have hne' : getDayKey k t ≠ getMinuteKey k t :=
    Ne.symm (getMinuteKey_ne_getDayKey k t t)
  unfold checkRateLimit
  simp [fset_ne _ _ _ _ hne']

/-- C2: (general) starting from fresh buckets, the i-th same-bucket counter
check reports over-limit exactly when i exceeds the minute or the day
limit, so at most L of them pass a minute limit of L; (concrete) for
credential "K" of tier "basic" (rate 20, so minute limit 1200), checks 1
through 1200 within one minute are admitted with counts i/i, the 1201st —
and every later check in the bucket — is rejected over-limit, and its
retry-after is between 1 and 60 seconds. -/
theorem c2_minute_limit_sequence (sec ms : Nat) (hsec : sec ≤ 59) (hms : ms ≤ 999) :
    (∀ (s : SysState) (k : String) (L D : Nat) (t : DateTimeUTC) (i : Nat),
      1 ≤ i →
      s.counters (getMinuteKey k t) = none →
      s.counters (getDayKey k t) = none →
      (checkRateLimit (runCounterCalls s
          (List.replicate (i - 1)
            { secret := k, minuteLimit := L, dayLimit := D, time := t }))
        k L D t).1.isOverLimit = (decide (L < i) || decide (D < i)))
    ∧ (∀ i, 1 ≤ i → i ≤ 1200 →
        (rateLimitMiddleware true (c2Time sec ms) (some "K") "api/data"
          (c2Run sec ms (i - 1))).toOption.map Prod.fst
        = some (RLVerdict.allowed i i 1200 1728000))
    ∧ ((rateLimitMiddleware true (c2Time sec ms) (some "K") "api/data"
          (c2Run sec ms 1200)).toOption.map Prod.fst
        = some (RLVerdict.blocked "Rate limit exceeded" (computeRetryAfter (c2Time sec ms))))
    ∧ (1 ≤ computeRetryAfter (c2Time sec ms) ∧ computeRetryAfter (c2Time sec ms) ≤ 60)
    ∧ (∀ i, 1201 ≤ i →
        (rateLimitMiddleware true (c2Time sec ms) (some "K") "api/data"
          (c2Run sec ms (i - 1))).toOption.map Prod.fst
        = some (RLVerdict.blocked "Rate limit exceeded" (computeRetryAfter (c2Time sec ms)))) := by
  refine ⟨?_, ?_, ?_, ?_, ?_⟩
  · intro s k L D t i hi hm hd
    have hown : ∀ cc ∈ List.replicate (i - 1)
        ({ secret := k, minuteLimit := L, dayLimit := D, time := t } : CounterCall),
        (getMinuteKey cc.secret cc.time = getMinuteKey k t
          ∧ getDayKey cc.secret cc.time = getDayKey k t)
        ∨ (getMinuteKey cc.secret cc.time ≠ getMinuteKey k t
          ∧ getMinuteKey cc.secret cc.time ≠ getDayKey k t
          ∧ getDayKey cc.secret cc.time ≠ getMinuteKey k t
          ∧ getDayKey cc.secret cc.time ≠ getDayKey k t) := by
      intro cc hcc
      have hcc' := List.eq_of_mem_replicate hcc
      subst hcc'
      exact Or.inl ⟨rfl, rfl⟩
    have hcounts := runCounterCalls_getD k t (List.replicate (i - 1)
      { secret := k, minuteLimit := L, dayLimit := D, time := t }) s hown
    have hfilter : (List.replicate (i - 1)
        ({ secret := k, minuteLimit := L, dayLimit := D, time := t } : CounterCall)).filter
        (fun c => decide (getMinuteKey c.secret c.time = getMinuteKey k t))
        = List.replicate (i - 1)
          ({ secret := k, minuteLimit := L, dayLimit := D, time := t } : CounterCall) := by
      rw [List.filter_eq_self]
      intro a ha
      have ha' := List.eq_of_mem_replicate ha
      subst ha'
      simp
    rw [hfilter] at hcounts
    rw [hm, hd] at hcounts
    simp only [Option.getD_none, List.length_replicate, Nat.zero_add] at hcounts
    rw [checkRateLimit_isOverLimit, hcounts.1, hcounts.2]
    have h1 : i - 1 + 1 = i := by omega
    rw [h1]
  · intro i h1 h2
    obtain ⟨cn, p, st, ls, hrun, hm, hd⟩ := c2_run_spec sec ms (i - 1)
    obtain ⟨p', st', ls', hstep⟩ := c2_step cn p st ls sec ms (i - 1) (i - 1) hm hd
    rw [hrun, hstep]
    have h3 : i - 1 + 1 = i := by omega
    rw [h3] at hstep ⊢
    have hno : ¬ (1200 < i ∨ 1728000 < i) := by omega
    rw [if_neg hno]
    rfl
  · obtain ⟨cn, p, st, ls, hrun, hm, hd⟩ := c2_run_spec sec ms 1200
    obtain ⟨p', st', ls', hstep⟩ := c2_step cn p st ls sec ms 1200 1200 hm hd
    rw [hrun, hstep]
    rw [if_pos (Or.inl (by omega))]
    rfl
  · constructor
    · show 1 ≤ (60000 - ((c2Time sec ms).sec * 1000 + (c2Time sec ms).ms) + 999) / 1000
      simp only [c2Time]
      omega
    · show (60000 - ((c2Time sec ms).sec * 1000 + (c2Time sec ms).ms) + 999) / 1000 ≤ 60
      simp only [c2Time]
      omega
  · intro i h1
    obtain ⟨cn, p, st, ls, hrun, hm, hd⟩ := c2_run_spec sec ms (i - 1)
    obtain ⟨p', st', ls', hstep⟩ := c2_step cn p st ls sec ms (i - 1) (i - 1) hm hd
    rw [hrun, hstep]
    have h3 : i - 1 + 1 = i := by omega
    rw [h3]
    rw [if_pos (Or.inl (by omega))]
    rfl

/-- Witness for C2 at sec = 0, ms = 0: the first check is admitted with
counts 1/1 and the over-limit retry-after lies between 1 and 60. -/
theorem c2_minute_limit_sequence_witness :
    (rateLimitMiddleware true (c2Time 0 0) (some "K") "api/data"
      (c2Run 0 0 0)).toOption.map Prod.fst
    = some (RLVerdict.allowed 1 1 1200 1728000)
    ∧ 1 ≤ computeRetryAfter (c2Time 0 0) ∧ computeRetryAfter (c2Time 0 0) ≤ 60 :=
  ⟨(c2_minute_limit_sequence 0 0 (by decide) (by decide)).2.1 1 (by decide) (by decide),
   (c2_minute_limit_sequence 0 0 (by decide) (by decide)).2.2.2.1⟩
